import Mathlib

/-!
Verification of the unified-access-gateway core against its specification.

Shallow embedding of the Go sources:
* `src/internal/core/sniffer.go` (protocol sniffer, wrapped stream),
* `src/internal/config/redis.go` and the `main` in `src/unnamed/part_000`
  (startup),
* `src/internal/security/manager.go` (policy engine),
* `src/internal/protocol/http/handler.go` and the cloud-native middleware in
  `src/unnamed/part_008` (HTTP deny path and response headers).

Byte streams are `List Nat`; the float/int pair feeding the token bucket is
modelled as a rational and an integer; fallible operations return `Option`
or `Except`.  The file lists all definitions first, then the theorems.
-/

namespace UAG

/-! ## Definitions: protocol sniffer (`src/internal/core/sniffer.go`) -/

/-- Protocol classification produced by the sniffer (`ProtocolType` in
`src/internal/core/sniffer.go`). -/
inductive ProtocolType where
  | unknown
  | http
  | tcp
  | tls
  deriving DecidableEq, Repr

/-- Byte values of the Go string literal "GET " compared against the peeked
bytes in `Sniff`. -/
def getBytes : List Nat := [71, 69, 84, 32]

/-- Byte values of the Go string literal "POST". -/
def postBytes : List Nat := [80, 79, 83, 84]

/-- Byte values of the Go string literal "HTTP". -/
def httpBytes : List Nat := [72, 84, 84, 80]

/-- The body of `SniffConn.Sniff` (`src/internal/core/sniffer.go` lines 39-68,
identical in `src/unnamed/part_016` lines 45-73).  `peeked` is the byte slice
returned by `bufio.Reader.Peek(5)` (shorter than 5 only when the stream ended
early); `errNonEOF` is true when `Peek` returned an error other than `io.EOF`
(for example the 500 ms read deadline fired before enough bytes arrived).
The Go code compares `string(bytes)` — the WHOLE peeked slice — for equality
with the literals "GET ", "POST" and "HTTP"; it does not test prefixes and
has no case for "PUT ", "DELE" or "HEAD". -/
def Sniff (peeked : List Nat) (errNonEOF : Bool) : ProtocolType :=
  if errNonEOF then ProtocolType.unknown
  else if peeked.length < 2 then ProtocolType.unknown
  else if peeked = getBytes ∨ peeked = postBytes ∨ peeked = httpBytes then ProtocolType.http
  else if peeked.headD 0 = 0x16 then ProtocolType.tls
  else ProtocolType.tcp

/-- The wrapped connection (`SniffConn` in `src/internal/core/sniffer.go`):
`buf` holds the bytes currently buffered by the `bufio.Reader` and not yet
delivered to a reader; `rest` is the byte stream still inside the underlying
socket.  The socket's chunking into packets is abstracted away: only the byte
contents and their order are modelled. -/
structure SniffConn where
  buf : List Nat
  rest : List Nat
  deriving DecidableEq, Repr

/-- NewSniffConn wraps a fresh connection: the bufio buffer starts empty. -/
def NewSniffConn (stream : List Nat) : SniffConn := ⟨[], stream⟩

/-- One `bufio.Reader.Peek n`: returns up to `n` bytes without consuming them,
first moving bytes from the underlying stream into the buffer if the buffer
holds fewer than `n`. -/
def SniffConn.peek (s : SniffConn) (n : Nat) : List Nat × SniffConn :=
  if n ≤ s.buf.length then (s.buf.take n, s)
  else
    let moved := s.rest.take (n - s.buf.length)
    let s' : SniffConn := ⟨s.buf ++ moved, s.rest.drop (n - s.buf.length)⟩
    (s'.buf.take n, s')

/-- One `Read` on the wrapped stream (`SniffConn.Read` delegates to
`bufio.Reader.Read`): bytes come from the buffer while it is nonempty, then
from the underlying stream; at most `k` bytes are returned. -/
def SniffConn.read (s : SniffConn) (k : Nat) : List Nat × SniffConn :=
  if s.buf.isEmpty then (s.rest.take k, ⟨[], s.rest.drop k⟩)
  else (s.buf.take k, ⟨s.buf.drop k, s.rest⟩)

/-- All bytes any reader will ever obtain from the wrapped connection. -/
def SniffConn.readAll (s : SniffConn) : List Nat := s.buf ++ s.rest

/-- Concatenated outputs of a sequence of reads with request sizes `ks`. -/
def SniffConn.readSeq (s : SniffConn) (ks : List Nat) : List Nat :=
  match ks with
  | [] => []
  | k :: ks => (s.read k).1 ++ SniffConn.readSeq (s.read k).2 ks

/-- State of the wrapped connection after a sequence of reads. -/
def SniffConn.runReads (s : SniffConn) (ks : List Nat) : SniffConn :=
  match ks with
  | [] => s
  | k :: ks => SniffConn.runReads (s.read k).2 ks

/-- State of the wrapped connection after `Sniff` ran: `Sniff` only calls
`Peek 5`, so its sole effect on the reader is the buffer fill of `peek 5`. -/
def sniffedState (s : SniffConn) : SniffConn := (s.peek 5).2

/-! ## Definitions: startup (`src/internal/config/redis.go`,
`src/unnamed/part_000`) -/

/-- Business configuration fields that decide startup and listener creation
(`BusinessConfig` in `src/internal/config/redis.go`; the numeric and duration
fields, which no claim touches, are elided). -/
structure BusinessConfig where
  listenAddr : String
  httpTargetURL : String
  tcpTargetAddr : String
  deriving DecidableEq, Repr

/-- Lookup of a hash field as `LoadBusinessConfig` does it: the Go code copies
a field only when it is present and non-empty (`ok && v != ""`), leaving the
zero value "" otherwise, so the result is the field value or "". -/
def hashGetD (fields : List (String × String)) (k : String) : String :=
  ((fields.find? (fun p => p.1 = k)).map (fun p => p.2)).getD ""

/-- LoadBusinessConfig (`src/internal/config/redis.go` lines 132-195).  The
Redis hash at key `{prefix}business:config` is modelled as
`Option (List (String × String))`: `none` when `EXISTS` reports the key
absent.  An absent key yields `ErrBusinessConfigNotFound`; a PRESENT hash is
returned without any validation of its fields — in particular a missing
`server.listen_addr` silently produces `listenAddr = ""`. -/
def LoadBusinessConfig (hash : Option (List (String × String))) :
    Except String BusinessConfig :=
  match hash with
  | none => Except.error "business config not found in redis"
  | some fields =>
    Except.ok
      { listenAddr := hashGetD fields "server.listen_addr"
        httpTargetURL := hashGetD fields "backends.http.target_url"
        tcpTargetAddr := hashGetD fields "backends.tcp.target_addr" }

/-- Whether `Listener.Start` (`src/internal/core/listener.go` lines 41-63)
opens the gateway listener.  The HTTP handler is nil when
`backends.http.target_url` is empty (`http/handler.go` `NewHandler`); the TCP
handler is never nil because `tcp/handler.go` `NewHandler` falls back to the
`TCP_BACKEND_ADDR` environment variable and then to "127.0.0.1:9621".  With a
handler available, `Start` still refuses to listen when the listen address is
empty: it logs CRITICAL and returns an error — it does not exit the process. -/
def listenerStart (cfg : BusinessConfig) : Bool :=
  let httpHandlerOk := cfg.httpTargetURL ≠ ""
  let tcpHandlerOk := true
  (httpHandlerOk || tcpHandlerOk) && cfg.listenAddr ≠ ""

/-- Outcome of process startup: either `os.Exit n` was called, or the process
keeps running with or without a gateway listener. -/
inductive StartupOutcome where
  | exitCode (n : Nat)
  | running (listenerOpened : Bool)
  deriving DecidableEq, Repr

/-- Steps 5-9 of `main` (`src/unnamed/part_000` lines 68-114) restricted to the
decisions visible at startup: Redis disabled or unreachable exits 1; a failed
`LoadBusinessConfig` exits 1; otherwise the server is started and the gateway
listener is opened (or not) by `Listener.Start`, whose failure is merely
logged by the goroutine in `Server.Start` (`xlog.Errorf` only prints — see
`src/unnamed/part_018`) while the process stays alive waiting for signals. -/
def mainStartup (redisEnabled redisReachable : Bool)
    (hash : Option (List (String × String))) : StartupOutcome :=
  if !redisEnabled then StartupOutcome.exitCode 1
  else if !redisReachable then StartupOutcome.exitCode 1
  else
    match LoadBusinessConfig hash with
    | Except.error _ => StartupOutcome.exitCode 1
    | Except.ok cfg => StartupOutcome.running (listenerStart cfg)

/-! ## Definitions: policy engine (`src/internal/security/manager.go`) -/

/-- Deny taxonomy of the policy engine; each constructor corresponds to one
of the `error` values produced in `manager.go`. -/
inductive DenyReason where
  | blockedIP (ip : String)
  | rateLimitExceeded
  | missingSubject
  | subjectNotAllowed (subject : String)
  | patternMatch (pattern : String)
  deriving DecidableEq, Repr

/-- The `Error()` string of each deny value as `manager.go` formats it. -/
def denyMessage : DenyReason → String
  | DenyReason.blockedIP ip => "blocked IP: " ++ ip
  | DenyReason.rateLimitExceeded => "rate limit exceeded"
  | DenyReason.missingSubject => "client certificate subject missing"
  | DenyReason.subjectNotAllowed s => "subject " ++ s ++ " not allowed"
  | DenyReason.patternMatch p => "blocked by pattern " ++ p

/-- Modelled from the spec: the token bucket of `golang.org/x/time/rate`,
an external dependency whose source is not in the repository.  Spec section
4.2: "Token bucket with continuous refill: tokens refilled at `rps` per
second up to `burst`, computed on each `allow()` call from the elapsed
monotonic time since last refill.  A call allows iff at least one token is
present; on allow, consume exactly one."  Times are rationals (seconds on the
monotonic clock). -/
structure TokenBucket where
  rps : ℚ
  burst : ℚ
  tokens : ℚ
  last : ℚ
  deriving DecidableEq, Repr

/-- Refill on a call at monotonic time `now`: add `elapsed × rps` tokens,
capped at `burst`. -/
def TokenBucket.refill (b : TokenBucket) (now : ℚ) : TokenBucket :=
  { b with tokens := min b.burst (b.tokens + (now - b.last) * b.rps), last := now }

/-- Consume one token. -/
def TokenBucket.consumeOne (b : TokenBucket) : TokenBucket :=
  { b with tokens := b.tokens - 1 }

/-- Modelled from the spec: `Limiter.Allow()`.  Refill from the elapsed time,
then allow iff at least one token is present, consuming exactly one on
allow. -/
def TokenBucket.allow (b : TokenBucket) (now : ℚ) : Bool × TokenBucket :=
  let b' := b.refill now
  if 1 ≤ b'.tokens then (true, b'.consumeOne) else (false, b')

/-- Number of allowed outcomes over a sequence of `Allow()` calls at the
given monotonic times. -/
def countAllows (b : TokenBucket) (ts : List ℚ) : Nat :=
  match ts with
  | [] => 0
  | t :: rest => (if (b.allow t).1 then 1 else 0) + countAllows (b.allow t).2 rest

/-- A compiled WAF pattern: its source string (`re.String()`) and its match
function (`re.MatchString`).  Regex semantics are abstracted into the match
function. -/
structure CompiledPattern where
  src : String
  matchesPayload : String → Bool

/-- Mutable state of `security.Manager` (`manager.go` lines 22-37): the four
hot-reloaded policy sections.  The deny/allow sets are lists with membership
semantics; the rate limiter is `none` when disabled (`m.limiter == nil`).
The mirror writes into `m.cfg.Security` and the audit sink, which no claim
touches, are elided. -/
structure SecState where
  allowedSubjects : List String
  blockedIPs : List String
  blockedPatterns : List CompiledPattern
  limiter : Option TokenBucket

/-- DisableRateLimit (`manager.go` lines 325-333): the limiter becomes nil. -/
def DisableRateLimit (st : SecState) : SecState := { st with limiter := none }

/-- UpdateRateLimit (`manager.go` lines 310-322): non-positive `rps` or
`burst` disables the limiter; otherwise a fresh limiter is installed.  A
fresh `rate.NewLimiter` starts with a full bucket of `burst` tokens. -/
def UpdateRateLimit (st : SecState) (rps : ℚ) (burst : Int) (now : ℚ) : SecState :=
  if rps ≤ 0 ∨ burst ≤ 0 then DisableRateLimit st
  else { st with limiter := some ⟨rps, (burst : ℚ), (burst : ℚ), now⟩ }

/-- UpdateBlockedIPs (`manager.go` lines 336-348): rebuilds the blocked set,
skipping empty strings. -/
def UpdateBlockedIPs (st : SecState) (ips : List String) : SecState :=
  { st with blockedIPs := ips.filter (fun ip => ip ≠ "") }

/-- UpdateBlockedPatterns (`manager.go` lines 351-368): rebuilds the pattern
list, skipping empty strings and patterns that fail to compile.  `compile`
stands for `regexp.Compile`: `none` models a compile failure (the pattern is
dropped, not fatal). -/
def UpdateBlockedPatterns (compile : String → Option CompiledPattern)
    (st : SecState) (patterns : List String) : SecState :=
  { st with blockedPatterns :=
      patterns.filterMap (fun p => if p = "" then none else compile p) }

/-- UpdateAllowedSubjects (`manager.go` lines 371-383): rebuilds the allowed
subject set, skipping empty strings. -/
def UpdateAllowedSubjects (st : SecState) (subjects : List String) : SecState :=
  { st with allowedSubjects := subjects.filter (fun s => s ≠ "") }

/-- isBlockedIP (`manager.go` lines 284-292): the empty IP is never blocked;
otherwise membership in the blocked set. -/
def isBlockedIP (st : SecState) (ip : String) : Bool :=
  if ip = "" then false else st.blockedIPs.contains ip

/-- CheckConnection (`manager.go` lines 143-161).  `ip` is the result of
`extractIP(addr.String())`; `wafEnabled` is `m.cfg.Security.WAF.Enabled`;
`now` is the monotonic time of the call.  The IP deny list is consulted only
when WAF is enabled; a blocked IP denies without touching the limiter; with a
nil limiter the rate-limit stage always passes; otherwise `Allow()` decides
and its token-bucket state advances. -/
def CheckConnection (wafEnabled : Bool) (st : SecState) (ip : String) (now : ℚ) :
    Option DenyReason × SecState :=
  if wafEnabled && isBlockedIP st ip then (some (DenyReason.blockedIP ip), st)
  else
    match st.limiter with
    | none => (none, st)
    | some b =>
      if (b.allow now).1 then (none, { st with limiter := some (b.allow now).2 })
      else (some DenyReason.rateLimitExceeded, { st with limiter := some (b.allow now).2 })

/-- The string each WAF pattern is matched against (`ApplyWAF` lines 208-211):
`path + "?" + rawQuery`, or just `path` when the raw query is empty. -/
def wafPayload (path rawQuery : String) : String :=
  if rawQuery ≠ "" then path ++ "?" ++ rawQuery else path

/-- The pattern loop of `ApplyWAF` (lines 212-217): the first pattern whose
regex matches the payload denies, naming the pattern. -/
def firstMatch (patterns : List CompiledPattern) (payload : String) : Option DenyReason :=
  match patterns with
  | [] => none
  | p :: rest =>
    if p.matchesPayload payload then some (DenyReason.patternMatch p.src)
    else firstMatch rest payload

/-- ApplyWAF (`manager.go` lines 195-219).  `ip` is `extractIP(r.RemoteAddr)`;
`path`/`rawQuery` are `r.URL.Path` and `r.URL.RawQuery`.  WAF disabled passes
everything; otherwise a blocked IP denies first, then the first matching
pattern denies. -/
def ApplyWAF (wafEnabled : Bool) (st : SecState) (ip path rawQuery : String) :
    Option DenyReason :=
  if !wafEnabled then none
  else if isBlockedIP st ip then some (DenyReason.blockedIP ip)
  else firstMatch st.blockedPatterns (wafPayload path rawQuery)

/-- The subject `AuthorizeHTTP` computes (lines 169-175): start empty; when a
TLS peer certificate is present take its subject-DN string; when the subject
is STILL EMPTY (no certificate, or a certificate whose DN prints as "") and a
header name is configured, take the header value.  `tlsSubject` is
`some dn` when `r.TLS != nil && len(r.TLS.PeerCertificates) > 0`;
`headerValue` is `r.Header.Get(headerSubjectName)` ("" when absent). -/
def effectiveSubject (tlsSubject : Option String)
    (headerSubjectName headerValue : String) : String :=
  let subject := match tlsSubject with | some dn => dn | none => ""
  if subject = "" ∧ headerSubjectName ≠ "" then headerValue else subject

/-- Modelled from the claim's words, for the C7 counterexample only: the
subject as claim C7 describes it — taken from the TLS peer certificate
subject-DN whenever a peer certificate is present, and only otherwise from
the configured header. -/
def claimedSubject (tlsSubject : Option String)
    (headerSubjectName headerValue : String) : String :=
  match tlsSubject with
  | some dn => dn
  | none => if headerSubjectName ≠ "" then headerValue else ""

/-- AuthorizeHTTP (`manager.go` lines 164-192).  Auth disabled passes; an
empty subject denies; an empty allowed-subjects set accepts any non-empty
subject; otherwise membership is required. -/
def AuthorizeHTTP (authEnabled : Bool) (headerSubjectName : String) (st : SecState)
    (tlsSubject : Option String) (headerValue : String) : Option DenyReason :=
  if !authEnabled then none
  else
    let subject := effectiveSubject tlsSubject headerSubjectName headerValue
    if subject = "" then some DenyReason.missingSubject
    else if st.allowedSubjects = [] then none
    else if st.allowedSubjects.contains subject then none
    else some (DenyReason.subjectNotAllowed subject)

/-! ## Definitions: hot-reload snapshot (`manager.go` `applySnapshot`) -/

/-- The security snapshot loaded from Redis (`config.SecurityConfig` as used
by `applySnapshot`; the auth `enabled`/`header_subject` scalars, which
`applySnapshot` does not read, are elided). -/
structure SecuritySnapshot where
  rateLimitEnabled : Bool
  rateLimitRps : ℚ
  rateLimitBurst : Int
  wafBlockedIPs : List String
  wafBlockedPatterns : List String
  authAllowedSubjects : List String

/-- applySnapshot (`manager.go` lines 102-122): each policy section is
installed only when the snapshot carries something for it — the rate-limit
section only when `Enabled` (with non-positive rps disabling), and each
set/list only when non-empty. -/
def applySnapshot (compile : String → Option CompiledPattern) (now : ℚ)
    (st : SecState) (snap : SecuritySnapshot) : SecState :=
  let st1 :=
    if snap.rateLimitEnabled then
      if 0 < snap.rateLimitRps then UpdateRateLimit st snap.rateLimitRps snap.rateLimitBurst now
      else DisableRateLimit st
    else st
  let st2 := if snap.wafBlockedIPs ≠ [] then UpdateBlockedIPs st1 snap.wafBlockedIPs else st1
  let st3 :=
    if snap.wafBlockedPatterns ≠ [] then UpdateBlockedPatterns compile st2 snap.wafBlockedPatterns
    else st2
  if snap.authAllowedSubjects ≠ [] then UpdateAllowedSubjects st3 snap.authAllowedSubjects else st3

/-! ## Definitions: HTTP handler deny path
(`src/internal/protocol/http/handler.go`) -/

/-- One audit line as `AuditHTTP` (`manager.go` lines 233-255) renders it:
action "deny" with the error text as detail when an error is present, else
action "allow".  Timestamp, remote address, method, path and duration are
elided; `status` is the recorded status code. -/
structure AuditEntry where
  action : String
  status : Nat
  detail : String
  deriving DecidableEq, Repr

/-- The entry `AuditHTTP` writes for a given status and optional deny. -/
def auditHTTPEntry (status : Nat) (err : Option DenyReason) : AuditEntry :=
  match err with
  | some e => ⟨"deny", status, denyMessage e⟩
  | none => ⟨"allow", status, ""⟩

/-- Observable outcome of serving one HTTP request. -/
structure HandlerOutcome where
  status : Nat
  body : String
  audit : List AuditEntry
  upstreamCalled : Bool
  deriving DecidableEq, Repr

/-- The `wrappedHandler` body of `ServeConn` (`http/handler.go` lines 69-94).
`authResult` is the value `AuthorizeHTTP` returned for this request and
`wafResult` the value `ApplyWAF` would return (`ApplyWAF` is only consulted
when authorization passed); `upstreamStatus`/`upstreamBody` describe the
proxied exchange used when nothing denied.  On an authorization error the
response is 401 with the error text; on a WAF error 403 with body
"blocked by WAF"; in both cases one audit entry is emitted via `AuditHTTP`
and the reverse proxy is not invoked. -/
def serveRequest (authResult wafResult : Option DenyReason)
    (upstreamStatus : Nat) (upstreamBody : String) : HandlerOutcome :=
  match authResult with
  | some e => ⟨401, denyMessage e, [auditHTTPEntry 401 (some e)], false⟩
  | none =>
    match wafResult with
    | some e => ⟨403, "blocked by WAF", [auditHTTPEntry 403 (some e)], false⟩
    | none =>
      ⟨upstreamStatus, upstreamBody, [auditHTTPEntry upstreamStatus none], true⟩

/-! ## Definitions: gateway headers (`http/handler.go` `NewHandler`,
`src/unnamed/part_008` `CloudNativeMiddleware`) -/

/-- Header collections, as association lists. -/
abbrev Headers := List (String × String)

/-- `http.Header.Set`: replace any existing values for the key. -/
def setHeader (hs : Headers) (k v : String) : Headers :=
  (k, v) :: hs.filter (fun p => p.1 ≠ k)

/-- `http.Header.Get`: the value for the key, if any. -/
def getHeader (hs : Headers) (k : String) : Option String :=
  (hs.find? (fun p => p.1 = k)).map (fun p => p.2)

/-- The custom `Director` installed by `NewHandler` (`http/handler.go` lines
37-43): after the standard single-host director it sets `X-Gateway-ID:
uag-v1` on the OUTBOUND request headers.  The URL/Host rewrite of the
standard director is elided.  `ModifyResponse` (lines 46-49) is the identity
on the response. -/
def director (reqHeaders : Headers) : Headers :=
  setHeader reqHeaders "X-Gateway-ID" "uag-v1"

/-- The response headers `CloudNativeMiddleware` sets on the ResponseWriter
before invoking the inner handler (`src/unnamed/part_008` lines 44-46). -/
def cloudNativeResponseHeaders (podName requestID : String) (hs : Headers) : Headers :=
  setHeader (setHeader (setHeader hs "X-Gateway-Pod" podName)
    "X-Gateway-Version" "1.0.0") "X-Request-ID" requestID

/-- Headers of the response delivered to the client on a successful proxied
exchange: the middleware's preset headers, with the upstream response headers
added afterwards by the reverse proxy's header copy. -/
def clientResponseHeaders (podName requestID : String) (upstreamHeaders : Headers) : Headers :=
  cloudNativeResponseHeaders podName requestID [] ++ upstreamHeaders

/-! ## Definitions: concrete states for counterexamples and witnesses -/

/-- A manager state whose deny list blocks 9.9.9.9, with no limiter. -/
def denyListState : SecState := ⟨[], ["9.9.9.9"], [], none⟩

/-- A manager state with one compiled WAF pattern matching exactly the
payload "/evil". -/
def evilPatternState : SecState :=
  ⟨[], [], [⟨"evil", fun s => s == "/evil"⟩], none⟩

/-- A manager state with an empty allowed-subjects set. -/
def anySubjectState : SecState := ⟨[], [], [], none⟩

/-- A manager state allowing exactly the subject "alice". -/
def aliceOnlyState : SecState := ⟨["alice"], [], [], none⟩

/-- A prior manager state with a non-empty IP deny list, for C10. -/
def priorDenyListState : SecState := ⟨[], ["1.2.3.4"], [], none⟩

/-- A snapshot whose blocked-IP set is the non-empty list containing only the
empty string, every other section empty or disabled. -/
def emptyStringIPSnapshot : SecuritySnapshot := ⟨false, 0, 0, [""], [], []⟩

/-- A snapshot carrying nothing: every section empty or disabled. -/
def vacuousSnapshot : SecuritySnapshot := ⟨false, 0, 0, [], [], []⟩

/-- A full fresh bucket: rps 1, burst 2, 2 tokens, last refill at time 0. -/
def smallBucket : TokenBucket := ⟨1, 2, 2, 0⟩

/-! ## Theorems -/

theorem SniffConn.read_spec (s : SniffConn) (k : Nat) :
    (s.read k).1 ++ ((s.read k).2).readAll = s.readAll := by
  unfold SniffConn.read SniffConn.readAll
  by_cases h : s.buf.isEmpty
  · simp [h, List.isEmpty_iff.mp h]
  · simp [h, ← List.append_assoc]

theorem SniffConn.readSeq_spec (s : SniffConn) (ks : List Nat) :
    s.readSeq ks ++ (s.runReads ks).readAll = s.readAll := by
  induction ks generalizing s with
  | nil => simp [SniffConn.readSeq, SniffConn.runReads]
  | cons k ks ih =>
    simp only [SniffConn.readSeq, SniffConn.runReads, List.append_assoc]
    rw [ih, SniffConn.read_spec]

theorem SniffConn.peek_readAll (s : SniffConn) (n : Nat) :
    ((s.peek n).2).readAll = s.readAll := by
  unfold SniffConn.peek SniffConn.readAll
  by_cases h : n ≤ s.buf.length
  · simp [h]
  · simp [h, List.append_assoc]

theorem SniffConn.peek_fst_new (stream : List Nat) (n : Nat) :
    ((NewSniffConn stream).peek n).1 = stream.take n := by
  unfold SniffConn.peek NewSniffConn
  by_cases h : n = 0
  · simp [h]
  · simp [h, List.take_take]

/-- C2: the sniffer consumes no bytes.  After wrapping a connection whose
remaining socket stream is `stream` and running `Sniff` (whose only effect on
the reader is the `Peek 5` buffer fill), (a) the bytes still deliverable from
the wrapped stream are exactly `stream`, (b) the peeked bytes are precisely
the first (up to) 5 bytes of `stream`, and (c) every sequence of reads
yields, in order, a prefix of `stream` — the outputs concatenated with the
bytes still pending equal `stream`, i.e. the peeked prefix is re-delivered
first, followed by the remainder of the socket. -/
theorem sniffConn_stream_preserved (stream : List Nat) (ks : List Nat) :
    (sniffedState (NewSniffConn stream)).readAll = stream ∧
    ((NewSniffConn stream).peek 5).1 = stream.take 5 ∧
    (sniffedState (NewSniffConn stream)).readSeq ks ++
      ((sniffedState (NewSniffConn stream)).runReads ks).readAll = stream := by
  refine ⟨?_, SniffConn.peek_fst_new stream 5, ?_⟩
  · rw [sniffedState, SniffConn.peek_readAll]
    simp [NewSniffConn, SniffConn.readAll]
  · rw [SniffConn.readSeq_spec, sniffedState, SniffConn.peek_readAll]
    simp [NewSniffConn, SniffConn.readAll]

/-- C1: the classifier does not recognise real HTTP requests.  For every
connection that supplies at least 5 bytes, `Peek(5)` returns exactly 5 bytes,
and a 5-byte slice can never be equal to the 4-byte literals "GET ", "POST"
or "HTTP" that `Sniff` compares it against; the prefixes "PUT ", "DELE" and
"HEAD" named by the claim are not tested at all.  Consequently the peeked
bytes of the requests `GET /`, `POST `, `PUT /`, `DELET`, `HEAD ` and the
response line `HTTP/` — all of which the claim requires to classify as
`Http` — are classified `OpaqueTcp` (`ProtocolTCP`) by the code.  This
contradicts the code's own comment ("HTTP detection: GET, POST, PUT, DELETE,
HEAD...") and the spec's HTTP happy-path scenario. -/
theorem sniff_drops_http_requests :
    Sniff [71, 69, 84, 32, 47] false = ProtocolType.tcp ∧
    Sniff [80, 79, 83, 84, 32] false = ProtocolType.tcp ∧
    Sniff [80, 85, 84, 32, 47] false = ProtocolType.tcp ∧
    Sniff [68, 69, 76, 69, 84] false = ProtocolType.tcp ∧
    Sniff [72, 69, 65, 68, 32] false = ProtocolType.tcp ∧
    Sniff [72, 84, 84, 80, 47] false = ProtocolType.tcp := by
  decide

/-- C3: the missing-field half of the claim fails on the code.  When the
store is reachable and the business-config hash is ABSENT, the process does
exit with code 1 (first conjunct).  But when the hash is PRESENT and merely
lacks `server.listen_addr`, `LoadBusinessConfig` succeeds with an empty
listen address, `Listener.Start` logs at error and opens no listener, and
the process keeps running instead of exiting with code 1 (second conjunct):
the startup outcome is `running false`, not `exitCode 1`. -/
theorem startup_missing_listen_addr_no_exit :
    mainStartup true true none = StartupOutcome.exitCode 1 ∧
    mainStartup true true
        (some [("backends.http.target_url", "http://u:5000"),
               ("backends.tcp.target_addr", "u:6000")]) =
      StartupOutcome.running false := by
  constructor
  · rfl
  · rfl

/-- C4 counterexample: with WAF disabled, `CheckConnection` never consults the
IP deny list.  The state `denyListState` blocks 9.9.9.9, yet a connection
from 9.9.9.9 is ALLOWED (and the state untouched) because
`m.cfg.Security.WAF.Enabled` is false — the claim, which promises a deny for
every blocked remote IP, is false at this input.  The deny list can be
non-empty while WAF is disabled because `applySnapshot` installs
`waf:blocked_ips` from Redis without consulting the WAF enabled flag. -/
theorem checkConnection_ignores_denylist_when_waf_disabled :
    CheckConnection false denyListState "9.9.9.9" 0 = (none, denyListState) ∧
    denyListState.blockedIPs.contains "9.9.9.9" = true := by
  exact ⟨rfl, by decide⟩

/-- C4 (amended): `CheckConnection` consults the IP deny list before the rate
limiter ONLY WHEN WAF IS ENABLED.  (1) WAF enabled and IP blocked: deny with
the blocked-IP reason, the limiter state untouched — no token consumed.
(2) Otherwise, with no limiter installed the call allows without consuming.
(3) Otherwise with a limiter carrying at least one token after refill: allow,
consuming exactly one token.  (4) With fewer than one token after refill:
deny with the rate-limit reason, consuming nothing (the refill is kept). -/
theorem checkConnection_spec (wafEnabled : Bool) (st : SecState) (ip : String) (now : ℚ) :
    (wafEnabled = true → isBlockedIP st ip = true →
      CheckConnection wafEnabled st ip now = (some (DenyReason.blockedIP ip), st)) ∧
    ((wafEnabled && isBlockedIP st ip) = false → st.limiter = none →
      CheckConnection wafEnabled st ip now = (none, st)) ∧
    (∀ b, (wafEnabled && isBlockedIP st ip) = false → st.limiter = some b →
      1 ≤ (b.refill now).tokens →
      CheckConnection wafEnabled st ip now =
        (none, { st with limiter := some ((b.refill now).consumeOne) })) ∧
    (∀ b, (wafEnabled && isBlockedIP st ip) = false → st.limiter = some b →
      ¬ 1 ≤ (b.refill now).tokens →
      CheckConnection wafEnabled st ip now =
        (some DenyReason.rateLimitExceeded, { st with limiter := some (b.refill now) })) := by
  refine ⟨?_, ?_, ?_, ?_⟩
  · intro hw hb
    simp [CheckConnection, hw, hb]
  · intro hcond hl
    simp [CheckConnection, hcond, hl]
  · intro b hcond hl h1
    simp [CheckConnection, hcond, hl, TokenBucket.allow, h1]
  · intro b hcond hl h1
    simp [CheckConnection, hcond, hl, TokenBucket.allow, h1]

/-- C4 witness: a blocked IP with WAF enabled is denied with the limiter
untouched. -/
theorem checkConnection_spec_witness :
    CheckConnection true denyListState "9.9.9.9" 0 =
      (some (DenyReason.blockedIP "9.9.9.9"), denyListState) :=
  (checkConnection_spec true denyListState "9.9.9.9" 0).1 rfl (by decide)

theorem allow_step (b : TokenBucket) (t : ℚ) (ht : b.last ≤ t) (hrps : 0 ≤ b.rps)
    (h0 : 0 ≤ b.tokens) (hb : b.tokens ≤ b.burst) :
    ((if (b.allow t).1 then (1 : ℚ) else 0) + ((b.allow t).2).tokens
        ≤ b.tokens + (t - b.last) * b.rps) ∧
    0 ≤ ((b.allow t).2).tokens ∧ ((b.allow t).2).tokens ≤ b.burst ∧
    ((b.allow t).2).last = t ∧ ((b.allow t).2).rps = b.rps ∧
    ((b.allow t).2).burst = b.burst := by
  have hmul : 0 ≤ (t - b.last) * b.rps := mul_nonneg (sub_nonneg.mpr ht) hrps
  have hburst : (0 : ℚ) ≤ b.burst := le_trans h0 hb
  have hml : min b.burst (b.tokens + (t - b.last) * b.rps) ≤ b.burst := min_le_left _ _
  have hmr : min b.burst (b.tokens + (t - b.last) * b.rps)
      ≤ b.tokens + (t - b.last) * b.rps := min_le_right _ _
  have hm0 : (0 : ℚ) ≤ min b.burst (b.tokens + (t - b.last) * b.rps) :=
    le_min hburst (by linarith)
  by_cases h1 : (1 : ℚ) ≤ min b.burst (b.tokens + (t - b.last) * b.rps)
  · have hallow : b.allow t =
        (true, ⟨b.rps, b.burst, min b.burst (b.tokens + (t - b.last) * b.rps) - 1, t⟩) := by
      simp [TokenBucket.allow, TokenBucket.refill, TokenBucket.consumeOne, h1]
    rw [hallow]
    refine ⟨?_, ?_, ?_, rfl, rfl, rfl⟩
    · rw [if_pos rfl]
      dsimp only
      linarith
    · dsimp only
      linarith
    · dsimp only
      linarith
  · have hallow : b.allow t =
        (false, ⟨b.rps, b.burst, min b.burst (b.tokens + (t - b.last) * b.rps), t⟩) := by
      simp [TokenBucket.allow, TokenBucket.refill, h1]
    rw [hallow]
    refine ⟨?_, ?_, ?_, rfl, rfl, rfl⟩
    · rw [if_neg (by simp)]
      dsimp only
      linarith
    · dsimp only
      linarith
    · dsimp only
      linarith

theorem countAllows_le (b : TokenBucket) (ts : List ℚ)
    (hchain : List.Chain (· ≤ ·) b.last ts) (hrps : 0 ≤ b.rps)
    (h0 : 0 ≤ b.tokens) (hb : b.tokens ≤ b.burst) :
    (countAllows b ts : ℚ) ≤ b.tokens + (ts.getLastD b.last - b.last) * b.rps := by
  induction ts generalizing b with
  | nil => simpa [countAllows] using h0
  | cons t rest ih =>
    rw [List.chain_cons] at hchain
    obtain ⟨ht, hchain⟩ := hchain
    obtain ⟨hstep, h0b, hbb, hlast, hrpsb, hburstb⟩ := allow_step b t ht hrps h0 hb
    have hchain2 : List.Chain (· ≤ ·) ((b.allow t).2).last rest := by
      rw [hlast]; exact hchain
    have hrps2 : 0 ≤ ((b.allow t).2).rps := by rw [hrpsb]; exact hrps
    have hb2 : ((b.allow t).2).tokens ≤ ((b.allow t).2).burst := by
      rw [hburstb]; exact hbb
    have IH := ih ((b.allow t).2) hchain2 hrps2 h0b hb2
    rw [hlast, hrpsb] at IH
    have key : (t - b.last) * b.rps + (rest.getLastD t - t) * b.rps
        = (rest.getLastD t - b.last) * b.rps := by ring
    simp only [countAllows, List.getLastD_cons]
    push_cast
    by_cases hok : (b.allow t).1 = true
    · rw [if_pos hok] at hstep ⊢
      linarith
    · rw [if_neg hok] at hstep ⊢
      linarith

/-- C5: the rate limiter's window bound and its disabling.  First conjunct:
for any bucket state with `0 ≤ rps`, `0 ≤ tokens ≤ burst` (every reachable
state satisfies this — a fresh limiter starts full) and any nondecreasing
sequence of call times inside the window `[last, last + T]`, the number of
allowed outcomes is at most `burst + T × rps`.  Second conjunct:
`UpdateRateLimit` with `rps ≤ 0` or `burst ≤ 0` removes the limiter, after
which no admission check can ever deny for the rate-limit reason — the
rate-limit stage always passes. -/
theorem rateLimiter_window_bound (b : TokenBucket) (ts : List ℚ) (T : ℚ)
    (hchain : List.Chain (· ≤ ·) b.last ts) (hrps : 0 ≤ b.rps)
    (h0 : 0 ≤ b.tokens) (hb : b.tokens ≤ b.burst)
    (hT : ts.getLastD b.last ≤ b.last + T) :
    (countAllows b ts : ℚ) ≤ b.burst + T * b.rps ∧
    (∀ (st : SecState) (rps : ℚ) (burst : Int) (now : ℚ),
      rps ≤ 0 ∨ burst ≤ 0 →
      (UpdateRateLimit st rps burst now).limiter = none ∧
      ∀ (wafEnabled : Bool) (ip : String) (t : ℚ),
        (CheckConnection wafEnabled (UpdateRateLimit st rps burst now) ip t).1 ≠
          some DenyReason.rateLimitExceeded) := by
  constructor
  · have h := countAllows_le b ts hchain hrps h0 hb
    have hmono : (ts.getLastD b.last - b.last) * b.rps ≤ T * b.rps :=
      mul_le_mul_of_nonneg_right (by linarith) hrps
    linarith
  · intro st rps burst now hneg
    have hlim : (UpdateRateLimit st rps burst now).limiter = none := by
      unfold UpdateRateLimit DisableRateLimit
      rw [if_pos hneg]
    refine ⟨hlim, ?_⟩
    intro wafEnabled ip t
    unfold CheckConnection
    by_cases hB : (wafEnabled && isBlockedIP (UpdateRateLimit st rps burst now) ip) = true
    · simp [hB]
    · simp [hB, hlim]

/-- C5 witness: a fresh bucket with rps 1 and burst 2, hit three times at the
same instant, allows at most `2 + 0 × 1` connections. -/
theorem rateLimiter_window_bound_witness :
    (countAllows smallBucket [0, 0, 0] : ℚ) ≤ smallBucket.burst + 0 * smallBucket.rps :=
  (rateLimiter_window_bound smallBucket [0, 0, 0] 0
    (by simp [smallBucket, List.chain_cons]) (by simp [smallBucket])
    (by simp [smallBucket]) (by simp [smallBucket])
    (by simp [smallBucket, List.getLastD_cons])).1

theorem firstMatch_eq_none_iff (ps : List CompiledPattern) (payload : String) :
    firstMatch ps payload = none ↔
      ∀ p ∈ ps, p.matchesPayload payload = false := by
  induction ps with
  | nil => simp [firstMatch]
  | cons p rest ih =>
    by_cases h : p.matchesPayload payload = true
    · simp [firstMatch, h]
    · simp only [Bool.not_eq_true] at h
      simp [firstMatch, h, ih]

theorem firstMatch_first (l r : List CompiledPattern) (p : CompiledPattern)
    (payload : String)
    (hl : ∀ q ∈ l, q.matchesPayload payload = false)
    (hp : p.matchesPayload payload = true) :
    firstMatch (l ++ p :: r) payload = some (DenyReason.patternMatch p.src) := by
  induction l with
  | nil => simp [firstMatch, hp]
  | cons q l ih =>
    have hq : q.matchesPayload payload = false := hl q (List.mem_cons_self q l)
    simp only [List.cons_append, firstMatch, hq, Bool.false_eq_true, if_false]
    exact ih (fun x hx => hl x (List.mem_cons_of_mem q hx))

/-- C6: with WAF enabled, `ApplyWAF` first denies a blocked remote IP; with
the IP not blocked it evaluates the compiled patterns against
`path + "?" + rawQuery` (just `path` when the query is empty, by definition
of `wafPayload`): the request passes iff no pattern matches, and whenever the
pattern list splits as `l ++ p :: r` with everything in `l` failing and `p`
matching, the deny names exactly `p` — the first matching pattern. -/
theorem applyWAF_spec (st : SecState) (ip path rawQuery : String) :
    (isBlockedIP st ip = true →
      ApplyWAF true st ip path rawQuery = some (DenyReason.blockedIP ip)) ∧
    (isBlockedIP st ip = false →
      (ApplyWAF true st ip path rawQuery = none ↔
        ∀ p ∈ st.blockedPatterns,
          p.matchesPayload (wafPayload path rawQuery) = false)) ∧
    (isBlockedIP st ip = false →
      ∀ l p r, st.blockedPatterns = l ++ p :: r →
        (∀ q ∈ l, q.matchesPayload (wafPayload path rawQuery) = false) →
        p.matchesPayload (wafPayload path rawQuery) = true →
        ApplyWAF true st ip path rawQuery = some (DenyReason.patternMatch p.src)) := by
  refine ⟨?_, ?_, ?_⟩
  · intro hb
    simp [ApplyWAF, hb]
  · intro hb
    simp [ApplyWAF, hb, firstMatch_eq_none_iff]
  · intro hb l p r hsplit hl hp
    simp only [ApplyWAF, hb, Bool.false_eq_true, if_false, Bool.not_true, hsplit]
    exact firstMatch_first l r p (wafPayload path rawQuery) hl hp

/-- C6 witness: the single pattern "evil" matches the payload of path
"/evil" with empty query, so the request is denied naming that pattern. -/
theorem applyWAF_spec_witness :
    ApplyWAF true evilPatternState "1.1.1.1" "/evil" "" =
      some (DenyReason.patternMatch "evil") :=
  (applyWAF_spec evilPatternState "1.1.1.1" "/evil" "").2.2 (by decide)
    [] ⟨"evil", fun s => s == "/evil"⟩ [] rfl (by intro q hq; simp at hq) (by decide)

/-- C7 counterexample: a TLS peer certificate IS present but its subject-DN
prints as the empty string; the configured subject header carries "alice".
The claim says the subject is taken from the certificate when one is present,
hence is empty here, hence the request must be denied — but the code falls
back to the header whenever the certificate subject is the EMPTY STRING, so
`AuthorizeHTTP` accepts the request (allowed-subjects set empty, non-empty
subject "alice"). -/
theorem authorizeHTTP_empty_dn_fallback :
    AuthorizeHTTP true "X-Client-Subject" anySubjectState (some "") "alice" = none ∧
    claimedSubject (some "") "X-Client-Subject" "alice" = "" := by
  exact ⟨rfl, rfl⟩

/-- C7 (amended): with auth disabled every request passes.  Otherwise the
subject is the TLS peer certificate subject-DN when one is present AND its
DN is non-empty; when the certificate is absent or its DN is empty, the
configured header supplies the subject (last three conjuncts).  An empty
effective subject denies; a non-empty subject is accepted when the
allowed-subjects set is empty, and otherwise accepted iff it is a member. -/
theorem authorizeHTTP_spec (authEnabled : Bool) (name : String) (st : SecState)
    (tls : Option String) (hv : String) :
    (authEnabled = false → AuthorizeHTTP authEnabled name st tls hv = none) ∧
    (authEnabled = true → effectiveSubject tls name hv = "" →
      AuthorizeHTTP authEnabled name st tls hv = some DenyReason.missingSubject) ∧
    (authEnabled = true → effectiveSubject tls name hv ≠ "" →
      st.allowedSubjects = [] →
      AuthorizeHTTP authEnabled name st tls hv = none) ∧
    (authEnabled = true → effectiveSubject tls name hv ≠ "" →
      st.allowedSubjects ≠ [] →
      (AuthorizeHTTP authEnabled name st tls hv = none ↔
        st.allowedSubjects.contains (effectiveSubject tls name hv) = true)) ∧
    (∀ dn, dn ≠ "" → effectiveSubject (some dn) name hv = dn) ∧
    (name ≠ "" → effectiveSubject (some "") name hv = hv) ∧
    (name ≠ "" → effectiveSubject none name hv = hv) := by
  refine ⟨?_, ?_, ?_, ?_, ?_, ?_, ?_⟩
  · intro h
    simp [AuthorizeHTTP, h]
  · intro h hs
    simp [AuthorizeHTTP, h, hs]
  · intro h hs hset
    simp [AuthorizeHTTP, h, hs, hset]
  · intro h hs hset
    by_cases hc : st.allowedSubjects.contains (effectiveSubject tls name hv) = true
    · simp [AuthorizeHTTP, h, hs, hset, hc]
    · simp [AuthorizeHTTP, h, hs, hset, hc]
  · intro dn hdn
    simp [effectiveSubject, hdn]
  · intro hn
    simp [effectiveSubject, hn]
  · intro hn
    simp [effectiveSubject, hn]

/-- C7 witness: a certificate with the non-empty DN "alice" against an
allowed-subjects set containing exactly "alice" is accepted. -/
theorem authorizeHTTP_spec_witness :
    AuthorizeHTTP true "X-Client-Subject" aliceOnlyState (some "alice") "" = none :=
  ((authorizeHTTP_spec true "X-Client-Subject" aliceOnlyState (some "alice") "").2.2.2.1
    rfl (by decide) (by decide)).mpr (by decide)

/-- C8: whenever `AuthorizeHTTP` or `ApplyWAF` returned an error for a
request, the handler responds 401 (authorization failure, with the error
text as body) or 403 (WAF failure, with the short body "blocked by WAF"),
emits exactly one audit entry, whose action is "deny", and never invokes the
upstream reverse proxy. -/
theorem serveRequest_deny_spec (authResult wafResult : Option DenyReason)
    (us : Nat) (ub : String)
    (hdeny : authResult ≠ none ∨ wafResult ≠ none) :
    ((serveRequest authResult wafResult us ub).status = 401 ∨
      (serveRequest authResult wafResult us ub).status = 403) ∧
    (authResult ≠ none → (serveRequest authResult wafResult us ub).status = 401) ∧
    (authResult = none → (serveRequest authResult wafResult us ub).status = 403) ∧
    (∀ e, authResult = some e →
      (serveRequest authResult wafResult us ub).body = denyMessage e) ∧
    (authResult = none →
      (serveRequest authResult wafResult us ub).body = "blocked by WAF") ∧
    (serveRequest authResult wafResult us ub).audit.length = 1 ∧
    (∀ a ∈ (serveRequest authResult wafResult us ub).audit, a.action = "deny") ∧
    (serveRequest authResult wafResult us ub).upstreamCalled = false := by
  cases authResult with
  | some e =>
    simp [serveRequest, auditHTTPEntry]
  | none =>
    cases wafResult with
    | some e =>
      simp [serveRequest, auditHTTPEntry]
    | none =>
      rcases hdeny with h | h
      · exact absurd rfl h
      · exact absurd rfl h

/-- C8 witness: a request denied by authorization gets a 401, one deny audit
entry, and no upstream call. -/
theorem serveRequest_deny_spec_witness :
    (serveRequest (some DenyReason.missingSubject) none 200 "ok").upstreamCalled = false :=
  (serveRequest_deny_spec (some DenyReason.missingSubject) none 200 "ok"
    (Or.inl (by decide))).2.2.2.2.2.2.2

/-- C9 counterexample: on a successfully proxied exchange whose upstream
response carries only a Content-Type header, the response delivered to the
client has NO `X-Gateway-ID` header: the director sets that header only on
the outbound request, `ModifyResponse` is the identity, and the middleware
sets `X-Gateway-Pod` / `X-Gateway-Version` / `X-Request-ID` — but never
`X-Gateway-ID` — on the response.  The claim, which promises an
`X-Gateway-ID` response header, is false at this input. -/
theorem response_missing_gateway_id :
    getHeader (clientResponseHeaders "pod-1" "req-1" [("Content-Type", "text/plain")])
      "X-Gateway-ID" = none := by
  decide

/-- C9 (amended): the gateway's fixed identifier `X-Gateway-ID: uag-v1` is
attached to the OUTBOUND request to the upstream, not to the downstream
response: whenever the upstream response itself carries no `X-Gateway-ID`
header, neither does the response delivered to the client.  The response the
client sees instead carries the middleware's identifying headers, e.g.
`X-Gateway-Version: 1.0.0`. -/
theorem gatewayID_on_request_not_response (reqHeaders upstreamHeaders : Headers)
    (podName requestID : String)
    (hup : getHeader upstreamHeaders "X-Gateway-ID" = none) :
    getHeader (director reqHeaders) "X-Gateway-ID" = some "uag-v1" ∧
    getHeader (clientResponseHeaders podName requestID upstreamHeaders)
      "X-Gateway-ID" = none ∧
    getHeader (clientResponseHeaders podName requestID upstreamHeaders)
      "X-Gateway-Version" = some "1.0.0" := by
  have hfind : upstreamHeaders.find? (fun p => p.1 = "X-Gateway-ID") = none := by
    simpa [getHeader] using hup
  refine ⟨?_, ?_, ?_⟩
  · simp [getHeader, director, setHeader]
  · simp [getHeader, clientResponseHeaders, cloudNativeResponseHeaders, setHeader,
      List.find?_cons, hfind]
  · simp [getHeader, clientResponseHeaders, cloudNativeResponseHeaders, setHeader,
      List.find?_cons]

/-- C9 witness: an inbound request with only a Host header leaves the
director with `X-Gateway-ID: uag-v1` on the outbound request. -/
theorem gatewayID_on_request_not_response_witness :
    getHeader (director [("Host", "x")]) "X-Gateway-ID" = some "uag-v1" :=
  (gatewayID_on_request_not_response [("Host", "x")] [("Content-Length", "2")]
    "pod-1" "req-1" (by decide)).1

/-- C10 counterexample: a reload CAN clear an existing deny list.  With the
prior state blocking 1.2.3.4, applying a snapshot whose blocked-IP set is
the NON-EMPTY list `[""]` (a set containing only the empty string, as Redis
can hold) passes the `len > 0` guard, and `UpdateBlockedIPs` then skips the
empty string, leaving an empty deny list: the previously installed deny list
is wiped, contradicting the claim's "a reload can never clear an existing
deny list". -/
theorem applySnapshot_clears_denylist :
    (applySnapshot (fun _ => none) 0 priorDenyListState emptyStringIPSnapshot).blockedIPs
        = [] ∧
    priorDenyListState.blockedIPs = ["1.2.3.4"] ∧
    emptyStringIPSnapshot.wafBlockedIPs ≠ [] := by
  exact ⟨rfl, rfl, by decide⟩

/-- C10 (amended): applying a hot-reload snapshot overwrites only the policy
sections that are non-empty or enabled in the snapshot: an empty blocked-IP
set, blocked-pattern list, or allowed-subjects set, and a disabled rate-limit
section, each leave the previously installed state of that section unchanged.
In particular a reload whose blocked-IP set is EMPTY never clears an existing
deny list (though, per the counterexample, a non-empty set whose members are
all empty strings still can). -/
theorem applySnapshot_frame (compile : String → Option CompiledPattern) (now : ℚ)
    (st : SecState) (snap : SecuritySnapshot) :
    (snap.wafBlockedIPs = [] →
      (applySnapshot compile now st snap).blockedIPs = st.blockedIPs) ∧
    (snap.wafBlockedPatterns = [] →
      (applySnapshot compile now st snap).blockedPatterns = st.blockedPatterns) ∧
    (snap.authAllowedSubjects = [] →
      (applySnapshot compile now st snap).allowedSubjects = st.allowedSubjects) ∧
    (snap.rateLimitEnabled = false →
      (applySnapshot compile now st snap).limiter = st.limiter) := by
  unfold applySnapshot UpdateRateLimit DisableRateLimit UpdateBlockedIPs
    UpdateBlockedPatterns UpdateAllowedSubjects
  refine ⟨?_, ?_, ?_, ?_⟩ <;> intro h <;> simp [h] <;> split_ifs <;> rfl

/-- C10 witness: a snapshot carrying nothing leaves the deny list exactly as
it was. -/
theorem applySnapshot_frame_witness :
    (applySnapshot (fun _ => none) 0 priorDenyListState vacuousSnapshot).blockedIPs =
      priorDenyListState.blockedIPs :=
  (applySnapshot_frame (fun _ => none) 0 priorDenyListState vacuousSnapshot).1 rfl

end UAG
